import Mathlib

/-!
Verification of the hangout-overlap matching engine of the
`overlapping0.0.2alpha` repository.

The repository ships two variants of the calendar store hook:
the localStorage-backed variant (`src/unnamed/part_006`, with its storage
layer in `src/unnamed/part_000` and the shared types in
`src/unnamed/part_001`) and the firestore-backed variant
(`src/src/store/calendarStore.ts` together with
`src/src/services/firebase.ts`).  The overlap calculator, the match
detector, the match notifier, the hangout-match query and the event CRUD
guards are embedded below as pure Lean functions; asynchronous store access
is modelled by explicit state passing, and thrown JavaScript exceptions by
`Except`.

Timestamps are modelled by their parsed value: `new Date(s).getTime()`
yields either a finite number of epoch milliseconds or `NaN` for a
malformed string, so a timestamp field is an `Option Int`, with `none`
standing for a string that does not parse.
-/

namespace Overlapping

/-- A JavaScript time value: the result of `new Date(s).getTime()` on a
timestamp string, in epoch milliseconds.  `none` models `NaN`, obtained
from a malformed timestamp string. -/
abbrev JsTime := Option Int

/-- JavaScript `Math.max` on two time values; `NaN` is absorbing. -/
def jsMax : JsTime → JsTime → JsTime
  | some a, some b => some (max a b)
  | _, _ => none

/-- JavaScript `Math.min` on two time values; `NaN` is absorbing. -/
def jsMin : JsTime → JsTime → JsTime
  | some a, some b => some (min a b)
  | _, _ => none

/-- The `type` field of an `Event` (`"personal" | "hangout"`,
src/unnamed/part_001 line 22). -/
inductive EventType
  | personal
  | hangout
deriving DecidableEq, BEq, Repr

instance : LawfulBEq EventType where
  eq_of_beq := by intro a b h; cases a <;> cases b <;> first | rfl | exact absurd h (by decide)
  rfl := by intro a; cases a <;> decide

/-- The `type` field of a `Notification` (src/unnamed/part_001 line 56). -/
inductive NotificationType
  | friend_request
  | hangout_match
  | message
deriving DecidableEq, BEq, Repr

instance : LawfulBEq NotificationType where
  eq_of_beq := by intro a b h; cases a <;> cases b <;> first | rfl | exact absurd h (by decide)
  rfl := by intro a; cases a <;> decide

/-- An `Event` (src/unnamed/part_001 lines 15-24).  The hangout-only
`preferences` and `visibility` fields are never read by the components
verified here and are omitted.  Since `end` is a Lean keyword the model
keeps the source names `startTime` and `endTime` unchanged. -/
structure Event where
  id : String
  userId : String
  title : String
  description : Option String
  startTime : JsTime
  endTime : JsTime
  type : EventType
  createdAt : String
deriving DecidableEq, Repr

/-- The overlap value returned by `getTimeOverlap`; the source returns the
two instants as ISO strings via `toISOString`, and a valid instant and its
ISO string determine each other, so the model keeps the instants.  The
field `stop` stands for the source field `end`, which is a Lean keyword. -/
structure TimeRange where
  start : Int
  stop : Int
deriving DecidableEq, Repr

/-- A user document (src/unnamed/part_001 lines 1-13); profile fields never
read by the calendar store (email, username, avatar, friendRequests) are
omitted. -/
structure User where
  id : String
  fullName : String
  friends : List String
deriving DecidableEq, Repr

/-- The structured payload that `createHangoutMatch` stores in the `data`
field of a notification.  In the source `data` is typed `any`; the model
fixes the shape written and read by the match engine.  `matchedUserId` is
the result of an `Array.find`, hence possibly `undefined`. -/
structure MatchData where
  matchedUserId : Option String
  overlappingTime : TimeRange
  hangoutEvents : List String
deriving DecidableEq, Repr

/-- A `Notification` (src/unnamed/part_001 lines 53-62).  `data = none`
models both an absent payload and a payload of another notification kind;
in either case the optional-chained reads of the match engine yield
`false`, as they do in the source. -/
structure Notification where
  id : String
  userId : String
  type : NotificationType
  title : String
  message : String
  data : Option MatchData
  read : Bool
  createdAt : String
deriving DecidableEq, Repr

/-- The `HangoutMatch` shape produced by `getHangoutMatches`
(src/unnamed/part_001 lines 64-73).  `users` holds
`[userId, notification.data.matchedUserId]`; the second entry can be
`undefined` at run time, so entries are `Option String`. -/
structure HangoutMatch where
  id : String
  users : List (Option String)
  overlappingTime : TimeRange
  hangoutEvents : List String
  createdAt : String
deriving DecidableEq, Repr

/-- The localStorage-backed stores of src/unnamed/part_000: the users list,
the current user, the events list and the notifications list. -/
structure Storage where
  users : List User
  currentUser : Option User
  events : List Event
  notifications : List Notification
deriving DecidableEq, Repr

/-- Ambient effects of one store operation: `genId k` is the string
returned by the `k`-th call to `generateId()` during the operation, and
`now` is the value of `new Date().toISOString()`. -/
structure Env where
  genId : Nat → String
  now : String

/-- The function `getTimeOverlap` (src/unnamed/part_006 lines 140-161 and,
wrapped in a `try/catch` that is unreachable on these paths,
src/src/store/calendarStore.ts lines 269-295).  The source compares
`overlapStart <= overlapEnd` on `Date` values; a comparison involving an
invalid date (`NaN`) is `false` in JavaScript, so when any of the four
parsed timestamps is `NaN` the function returns `null` without ever
reaching `toISOString`. -/
def getTimeOverlap (event1 event2 : Event) : Option TimeRange :=
  match jsMax event1.startTime event2.startTime, jsMin event1.endTime event2.endTime with
  | some overlapStart, some overlapEnd =>
    if overlapStart ≤ overlapEnd then some ⟨overlapStart, overlapEnd⟩ else none
  | _, _ => none

/-- The optional-chained read
`notification.data?.hangoutEvents?.includes(eid)`. -/
def dataIncludes : Option MatchData → String → Bool
  | some d, eid => d.hangoutEvents.contains eid
  | none, _ => false

/-- The `alreadyNotified` predicate of `checkForHangoutMatches`
(src/unnamed/part_006 lines 124-130): same user, kind `hangout_match`, and
a payload listing both event ids. -/
def dedupHit (uid e1id e2id : String) (n : Notification) : Bool :=
  n.userId == uid && n.type == NotificationType.hangout_match &&
    dataIncludes n.data e1id && dataIncludes n.data e2id

/-- The JavaScript comparison `s === o` of a string against a value that
may be `undefined`. -/
def jsStrEqOpt (s : String) (o : Option String) : Bool :=
  match o with
  | some t => s == t
  | none => false

/-- The notification record built inside `createHangoutMatch`
(src/unnamed/part_006 lines 178-191). -/
def mkMatchNotification (nid uid : String) (otherUserId : Option String)
    (otherUser : User) (overlap : TimeRange) (event1 event2 : Event)
    (now : String) : Notification :=
  { id := nid
    userId := uid
    type := NotificationType.hangout_match
    title := "Hangout Match Found!"
    message := "You and " ++ otherUser.fullName ++ " have overlapping hangout times"
    data := some { matchedUserId := otherUserId
                   overlappingTime := overlap
                   hangoutEvents := [event1.id, event2.id] }
    read := false
    createdAt := now }

/-- One iteration of the `users.forEach` loop of `createHangoutMatch`
(src/unnamed/part_006 lines 171-195): look up the other participant in the
users store and, when found, prepend a fresh notification
(`notificationStorage.addNotification` uses `unshift`). -/
def matchSide (env : Env) (users : List String) (uid : String)
    (event1 event2 : Event) (overlap : TimeRange) (st : Storage) (k : Nat) :
    Storage × Nat :=
  let otherUserId := users.find? (fun id => id != uid)
  match st.users.find? (fun u => jsStrEqOpt u.id otherUserId) with
  | some otherUser =>
    let n := mkMatchNotification (env.genId k) uid otherUserId otherUser overlap
      event1 event2 env.now
    ({ st with notifications := n :: st.notifications }, k + 1)
  | none => (st, k)

/-- The function `createHangoutMatch` (src/unnamed/part_006 lines 163-196).
The `forEach` over the literal array `[event1.userId, event2.userId]` is
unrolled into its two iterations. -/
def createHangoutMatch (env : Env) (event1 event2 : Event) (overlap : TimeRange)
    (st : Storage) (k : Nat) : Storage × Nat :=
  let users := [event1.userId, event2.userId]
  let r1 := matchSide env users event1.userId event1 event2 overlap st k
  matchSide env users event2.userId event1 event2 overlap r1.1 r1.2

/-- Result of one detector invocation: the updated storage, the id-supply
counter, and a ghost trace listing the `(event1.id, event2.id)` pairs for
which `createHangoutMatch` was invoked — the detected matches in the sense
of spec section 4.2.  The trace never influences the computation. -/
structure DetectorResult where
  storage : Storage
  counter : Nat
  matchLog : List (String × String)
deriving Repr

/-- Inner `friendHangouts.forEach` loop of `checkForHangoutMatches`
(src/unnamed/part_006 lines 119-136).  The notification store is re-read on
every iteration in the source, so the dedup check runs against the threaded
state. -/
def processFriendHangouts (env : Env) (uid : String) (hangoutEvent : Event) :
    List Event → Storage → Nat → List (String × String) → DetectorResult
  | [], st, k, log => ⟨st, k, log⟩
  | friendHangout :: rest, st, k, log =>
    match getTimeOverlap hangoutEvent friendHangout with
    | some overlap =>
      let alreadyNotified :=
        st.notifications.any (dedupHit uid hangoutEvent.id friendHangout.id)
      if alreadyNotified then
        processFriendHangouts env uid hangoutEvent rest st k log
      else
        let r := createHangoutMatch env hangoutEvent friendHangout overlap st k
        processFriendHangouts env uid hangoutEvent rest r.1 r.2
          (log ++ [(hangoutEvent.id, friendHangout.id)])
    | none => processFriendHangouts env uid hangoutEvent rest st k log

/-- Outer `friends.forEach` loop of `checkForHangoutMatches`
(src/unnamed/part_006 lines 114-137). -/
def processFriends (env : Env) (uid : String) (hangoutEvent : Event)
    (allEvents : List Event) :
    List User → Storage → Nat → List (String × String) → DetectorResult
  | [], st, k, log => ⟨st, k, log⟩
  | friend :: rest, st, k, log =>
    let friendHangouts := allEvents.filter
      (fun e => e.userId == friend.id && e.type == EventType.hangout)
    let r := processFriendHangouts env uid hangoutEvent friendHangouts st k log
    processFriends env uid hangoutEvent allEvents rest r.storage r.counter r.matchLog

/-- The match detector `checkForHangoutMatches`
(src/unnamed/part_006 lines 103-138). -/
def checkForHangoutMatches (env : Env) (userId : Option String)
    (hangoutEvent : Event) (st : Storage) (k : Nat) : DetectorResult :=
  match userId with
  | none => ⟨st, k, []⟩
  | some uid =>
    match st.currentUser with
    | none => ⟨st, k, []⟩
    | some currentUser =>
      let allEvents := st.events
      let friends := st.users.filter (fun u => currentUser.friends.contains u.id)
      processFriends env uid hangoutEvent allEvents friends st k []

/-- The `hangoutNotifications.map` body of `getHangoutMatches`
(src/unnamed/part_006 lines 206-212).  The source reads
`notification.data.matchedUserId` (and the other payload fields) without
optional chaining, so on a notification whose `data` is absent it throws a
`TypeError`; the model propagates that as `Except.error`. -/
def mapHangoutNotifications (uid : String) :
    List Notification → Except String (List HangoutMatch)
  | [] => Except.ok []
  | n :: rest =>
    match n.data with
    | some d =>
      (mapHangoutNotifications uid rest).map
        (fun l =>
          (⟨n.id, [some uid, d.matchedUserId], d.overlappingTime,
            d.hangoutEvents, n.createdAt⟩ : HangoutMatch) :: l)
    | none => Except.error "TypeError: cannot read matchedUserId of undefined"

/-- The hangout match query `getHangoutMatches`
(src/unnamed/part_006 lines 198-213). -/
def getHangoutMatches (userId : Option String)
    (notifications : List Notification) : Except String (List HangoutMatch) :=
  match userId with
  | none => Except.ok []
  | some uid =>
    let hangoutNotifications := notifications.filter
      (fun n => n.userId == uid && n.type == NotificationType.hangout_match)
    mapHangoutNotifications uid hangoutNotifications

/-- Spec-side shape of the `HangoutMatch` built from one notification, used
to state claim C4; defined only on notifications whose payload is present. -/
def matchOfNotification (uid : String) (n : Notification) : Option HangoutMatch :=
  n.data.map (fun d =>
    ⟨n.id, [some uid, d.matchedUserId], d.overlappingTime, d.hangoutEvents,
     n.createdAt⟩)

/-- Model of `Partial<Event>`: each field optionally present; with the
object spread `{ ...event, ...updates }` a present field overrides. -/
structure EventUpdates where
  id : Option String
  userId : Option String
  title : Option String
  description : Option (Option String)
  startTime : Option JsTime
  endTime : Option JsTime
  type : Option EventType
  createdAt : Option String
deriving DecidableEq, Repr

/-- The object spread `{ ...event, ...updates }`. -/
def applyUpdates (e : Event) (u : EventUpdates) : Event :=
  { id := u.id.getD e.id
    userId := u.userId.getD e.userId
    title := u.title.getD e.title
    description := u.description.getD e.description
    startTime := u.startTime.getD e.startTime
    endTime := u.endTime.getD e.endTime
    type := u.type.getD e.type
    createdAt := u.createdAt.getD e.createdAt }

/-- The storage helper `eventStorage.updateEvent`
(src/unnamed/part_000 lines 96-103): replaces the first event with a
matching id, if any. -/
def storageReplaceEvent : List Event → Event → List Event
  | [], _ => []
  | e :: rest, upd =>
    if e.id == upd.id then upd :: rest else e :: storageReplaceEvent rest upd

/-- The storage helper `eventStorage.deleteEvent`
(src/unnamed/part_000 lines 105-109). -/
def storageDeleteEvent (events : List Event) (eventId : String) : List Event :=
  events.filter (fun e => e.id != eventId)

/-- Result of `updateEvent` / `deleteEvent`: the returned boolean, the new
hook `events` state, and the storage. -/
structure MutationResult where
  ok : Bool
  hookEvents : List Event
  storage : Storage
deriving DecidableEq, Repr

/-- The function `updateEvent` (src/unnamed/part_006 lines 66-75).
`userId` is the hook argument, possibly `undefined`; `hookEvents` is the
hook `events` state. -/
def updateEvent (userId : Option String) (hookEvents : List Event)
    (eventId : String) (updates : EventUpdates) (st : Storage) : MutationResult :=
  match hookEvents.find? (fun e => e.id == eventId) with
  | none => ⟨false, hookEvents, st⟩
  | some event =>
    if jsStrEqOpt event.userId userId then
      let updatedEvent := applyUpdates event updates
      ⟨true,
       hookEvents.map (fun e => if e.id == eventId then updatedEvent else e),
       { st with events := storageReplaceEvent st.events updatedEvent }⟩
    else ⟨false, hookEvents, st⟩

/-- The function `deleteEvent` (src/unnamed/part_006 lines 77-85). -/
def deleteEvent (userId : Option String) (hookEvents : List Event)
    (eventId : String) (st : Storage) : MutationResult :=
  match hookEvents.find? (fun e => e.id == eventId) with
  | none => ⟨false, hookEvents, st⟩
  | some event =>
    if jsStrEqOpt event.userId userId then
      ⟨true,
       hookEvents.filter (fun e => e.id != eventId),
       { st with events := storageDeleteEvent st.events eventId }⟩
    else ⟨false, hookEvents, st⟩

/-- The record returned by a successful `checkEventOverlap`. -/
structure OverlapResult where
  userEvent : Event
  friendEvent : Event
  friend : User
  overlap : TimeRange
deriving DecidableEq, Repr

/-- Inner `for (const friendEvent of friendHangouts)` loop of
`checkEventOverlap` with its early return
(src/unnamed/part_006 lines 323-333). -/
def findOverlapInHangouts (targetEvent : Event) (friend : User) :
    List Event → Option OverlapResult
  | [] => none
  | friendEvent :: rest =>
    match getTimeOverlap targetEvent friendEvent with
    | some overlap => some ⟨targetEvent, friendEvent, friend, overlap⟩
    | none => findOverlapInHangouts targetEvent friend rest

/-- Outer `for (const friend of friends)` loop of `checkEventOverlap`
(src/unnamed/part_006 lines 318-334). -/
def findOverlapAcrossFriends (targetEvent : Event) (allEvents : List Event) :
    List User → Option OverlapResult
  | [] => none
  | friend :: rest =>
    let friendHangouts := allEvents.filter
      (fun e => e.userId == friend.id && e.type == EventType.hangout)
    match findOverlapInHangouts targetEvent friend friendHangouts with
    | some r => some r
    | none => findOverlapAcrossFriends targetEvent allEvents rest

/-- The function `checkEventOverlap` (src/unnamed/part_006 lines 301-337). -/
def checkEventOverlap (userId : Option String) (st : Storage)
    (eventId : String) : Option OverlapResult :=
  match userId with
  | none => none
  | some uid =>
    match st.currentUser with
    | none => none
    | some currentUser =>
      let allEvents := st.events
      match allEvents.find?
          (fun e => e.id == eventId && e.type == EventType.hangout) with
      | none => none
      | some targetEvent =>
        if targetEvent.userId == uid then
          let friends := st.users.filter
            (fun u => currentUser.friends.contains u.id)
          findOverlapAcrossFriends targetEvent allEvents friends
        else none

/-- Spec-side candidate list for claim C10: the friend hangouts in
friend-list order, then event order within each friend. -/
def overlapCandidates (allEvents : List Event) (friends : List User) :
    List (User × Event) :=
  friends.flatMap (fun f =>
    (allEvents.filter (fun e => e.userId == f.id && e.type == EventType.hangout)).map
      (fun e => (f, e)))

/-- Spec-side first-overlap search for claim C10. -/
def firstOverlap (targetEvent : Event) (cands : List (User × Event)) :
    Option OverlapResult :=
  cands.findSome? (fun p =>
    (getTimeOverlap targetEvent p.2).map (fun ov => ⟨targetEvent, p.2, p.1, ov⟩))

/-- The firestore backend as seen by src/src/store/calendarStore.ts: one
document list per collection, plus one availability flag per collection —
when a flag is `false`, every access to that collection throws, modelling
an unreachable store. -/
structure FirebaseDb where
  usersAvailable : Bool
  eventsAvailable : Bool
  notificationsAvailable : Bool
  userDocs : List User
  eventDocs : List Event
  notificationDocs : List Notification
deriving DecidableEq, Repr

/-- A call `getDoc(doc(db, 'users', uid))` followed by the
`exists()` check. -/
def fbGetUserDoc (db : FirebaseDb) (uid : String) : Except String (Option User) :=
  if db.usersAvailable then Except.ok (db.userDocs.find? (fun u => u.id == uid))
  else Except.error "store unavailable"

/-- The helper `getUserFriends` (src/src/store/calendarStore.ts lines
32-55): fetch the user document, then each friend document; the `try/catch`
converts any thrown store error into `[]`. -/
def fbGetUserFriends (db : FirebaseDb) (userId : String) : List User :=
  let computation : Except String (List User) := do
    let userDoc ← fbGetUserDoc db userId
    match userDoc with
    | none => pure []
    | some userData =>
      let friendIds := userData.friends
      if friendIds.isEmpty then pure []
      else do
        let friendDocs ← friendIds.mapM (fbGetUserDoc db)
        pure (friendDocs.filterMap (fun d => d))
  match computation with
  | Except.ok us => us
  | Except.error _ => []

/-- The helper `getEventsByUserIds` (src/src/store/calendarStore.ts lines
57-73): a `where userId in userIds` query; the `try/catch` converts a
thrown query error into `[]`. -/
def fbGetEventsByUserIds (db : FirebaseDb) (userIds : List String) : List Event :=
  if userIds.isEmpty then []
  else if db.eventsAvailable then
    db.eventDocs.filter (fun e => userIds.contains e.userId)
  else []

/-- The service `getUserNotifications` (src/src/services/firebase.ts lines
658-676); its own `try/catch` returns `[]` on failure.  The reverse
chronological ordering and the 50-item limit of the query are not modelled;
no claim verified here depends on them. -/
def fbGetUserNotifications (db : FirebaseDb) (userId : String) : List Notification :=
  if db.notificationsAvailable then
    db.notificationDocs.filter (fun n => n.userId == userId)
  else []

/-- The service `createNotification` (src/src/services/firebase.ts lines
688-699): the id comes from a fresh document reference, modelled by the id
supply; on a failed write the `catch` returns `null` and nothing is
stored. -/
def fbCreateNotification (env : Env) (db : FirebaseDb) (k : Nat)
    (mk : String → Notification) : FirebaseDb × Nat :=
  if db.notificationsAvailable then
    ({ db with notificationDocs := db.notificationDocs ++ [mk (env.genId k)] }, k + 1)
  else (db, k + 1)

/-- The `alreadyNotified` predicate of the firestore detector
(src/src/store/calendarStore.ts lines 251-256): no ownership conjunct —
the fetched set already holds only the notifications of the current user. -/
def fbDedupHit (e1id e2id : String) (n : Notification) : Bool :=
  n.type == NotificationType.hangout_match &&
    dataIncludes n.data e1id && dataIncludes n.data e2id

/-- One iteration of the `for (const notificationUserId of users)` loop in
the firestore `createHangoutMatch` (src/src/store/calendarStore.ts lines
307-331).  An `Except.error` result models a thrown user-document fetch,
which aborts the remaining iterations; the surrounding `try` catches it and
only logs. -/
def fbMatchSide (env : Env) (hookUserId : Option String) (users : List String)
    (nuid : String) (event1 event2 : Event) (overlap : TimeRange)
    (otherUser : User) (db : FirebaseDb) (k : Nat) :
    Except (FirebaseDb × Nat) (FirebaseDb × Nat) :=
  let otherUserId := users.find? (fun id => id != nuid)
  let targetUser : Except String (Option User) :=
    if jsStrEqOpt nuid hookUserId then Except.ok (some otherUser)
    else fbGetUserDoc db nuid
  match targetUser with
  | Except.error _ => Except.error (db, k)
  | Except.ok none => Except.ok (db, k)
  | Except.ok (some tu) =>
    Except.ok (fbCreateNotification env db k
      (fun nid => mkMatchNotification nid nuid otherUserId tu overlap event1 event2 env.now))

/-- The firestore `createHangoutMatch` (src/src/store/calendarStore.ts
lines 297-335), with the loop over `[event1.userId, event2.userId]`
unrolled into its two iterations. -/
def fbCreateHangoutMatch (env : Env) (hookUserId : Option String)
    (event1 event2 : Event) (overlap : TimeRange) (otherUser : User)
    (db : FirebaseDb) (k : Nat) : FirebaseDb × Nat :=
  let users := [event1.userId, event2.userId]
  match fbMatchSide env hookUserId users event1.userId event1 event2 overlap otherUser db k with
  | Except.error r => r
  | Except.ok r1 =>
    match fbMatchSide env hookUserId users event2.userId event1 event2 overlap otherUser r1.1 r1.2 with
    | Except.error r => r
    | Except.ok r => r

/-- Inner loop of the firestore detector (src/src/store/calendarStore.ts
lines 247-262); `safeNotifications` was fetched once, before both loops. -/
def fbProcessFriendHangouts (env : Env) (hookUserId : Option String)
    (hangoutEvent : Event) (safeNotifications : List Notification)
    (friend : User) :
    List Event → FirebaseDb → Nat → List (String × String) →
      FirebaseDb × Nat × List (String × String)
  | [], db, k, log => (db, k, log)
  | friendHangout :: rest, db, k, log =>
    match getTimeOverlap hangoutEvent friendHangout with
    | some overlap =>
      let alreadyNotified :=
        safeNotifications.any (fbDedupHit hangoutEvent.id friendHangout.id)
      if alreadyNotified then
        fbProcessFriendHangouts env hookUserId hangoutEvent safeNotifications
          friend rest db k log
      else
        let r := fbCreateHangoutMatch env hookUserId hangoutEvent friendHangout
          overlap friend db k
        fbProcessFriendHangouts env hookUserId hangoutEvent safeNotifications
          friend rest r.1 r.2 (log ++ [(hangoutEvent.id, friendHangout.id)])
    | none =>
      fbProcessFriendHangouts env hookUserId hangoutEvent safeNotifications
        friend rest db k log

/-- Outer loop of the firestore detector (src/src/store/calendarStore.ts
lines 242-263). -/
def fbProcessFriends (env : Env) (hookUserId : Option String)
    (hangoutEvent : Event) (friendHangouts : List Event)
    (safeNotifications : List Notification) :
    List User → FirebaseDb → Nat → List (String × String) →
      FirebaseDb × Nat × List (String × String)
  | [], db, k, log => (db, k, log)
  | friend :: rest, db, k, log =>
    let friendHangoutsForUser := friendHangouts.filter (fun e => e.userId == friend.id)
    let r := fbProcessFriendHangouts env hookUserId hangoutEvent safeNotifications
      friend friendHangoutsForUser db k log
    fbProcessFriends env hookUserId hangoutEvent friendHangouts safeNotifications
      rest r.1 r.2.1 r.2.2

/-- Result of one firestore detector invocation.  `matches` is the ghost
trace of the pairs handed to `createHangoutMatch`; `errorState` is the
value handed to `setError` during the call — the source never calls
`setError` inside `checkForHangoutMatches` (its `catch` only calls
`console.error`), so the field is `none` on every path. -/
structure FbDetectorResult where
  db : FirebaseDb
  counter : Nat
  matchLog : List (String × String)
  errorState : Option String
deriving Repr

/-- The firestore match detector `checkForHangoutMatches`
(src/src/store/calendarStore.ts lines 224-267). -/
def fbCheckForHangoutMatches (env : Env) (hookUserId : Option String)
    (hangoutEvent : Event) (db : FirebaseDb) (k : Nat) : FbDetectorResult :=
  match hookUserId with
  | none => ⟨db, k, [], none⟩
  | some uid =>
    let friends := fbGetUserFriends db uid
    if friends.isEmpty then ⟨db, k, [], none⟩
    else
      let friendIds := friends.map (fun f => f.id)
      let allEvents := fbGetEventsByUserIds db friendIds
      let friendHangouts := allEvents.filter (fun e => e.type == EventType.hangout)
      let safeNotifications := fbGetUserNotifications db uid
      let r := fbProcessFriends env (some uid) hangoutEvent friendHangouts
        safeNotifications friends db k []
      ⟨r.1, r.2.1, r.2.2, none⟩

/-- Concrete id supply and clock used by the witnesses. -/
def sampleEnv : Env :=
  ⟨fun k => "gen" ++ toString k, "2024-06-01T12:00:00.000Z"⟩

/-- Sample user owning the new hangout. -/
def sampleUserA : User := ⟨"u1", "Alice", ["u2"]⟩

/-- Sample friend owning the candidate hangout. -/
def sampleUserB : User := ⟨"u2", "Bob", ["u1"]⟩

/-- Sample hangout of u1, time range 18 to 20. -/
def sampleHangoutA : Event :=
  ⟨"e1", "u1", "Dinner", none, some 18, some 20, EventType.hangout, "c1"⟩

/-- Sample hangout of u2, time range 19 to 21. -/
def sampleHangoutB : Event :=
  ⟨"e2", "u2", "Picnic", none, some 19, some 21, EventType.hangout, "c2"⟩

/-- An existing pair notification for `[e1, e2]` that belongs to u2. -/
def samplePairNotifB : Notification :=
  ⟨"n0", "u2", NotificationType.hangout_match, "Hangout Match Found!", "m",
   some ⟨some "u1", ⟨19, 20⟩, ["e1", "e2"]⟩, false, "c0"⟩

/-- An existing pair notification for `[e1, e2]` that belongs to u1. -/
def samplePairNotifA : Notification :=
  ⟨"n1", "u1", NotificationType.hangout_match, "Hangout Match Found!", "m",
   some ⟨some "u2", ⟨19, 20⟩, ["e1", "e2"]⟩, false, "c0"⟩

/-- Storage where the only pair notification belongs to the friend u2. -/
def sampleStorageOther : Storage :=
  ⟨[sampleUserA, sampleUserB], some sampleUserA, [sampleHangoutB], [samplePairNotifB]⟩

/-- Storage where the pair notification belongs to the detecting user u1. -/
def sampleStorageOwn : Storage :=
  ⟨[sampleUserA, sampleUserB], some sampleUserA, [sampleHangoutB], [samplePairNotifA]⟩

/-- Storage with both users, no notifications. -/
def sampleStorage0 : Storage :=
  ⟨[sampleUserA, sampleUserB], some sampleUserA, [sampleHangoutB], []⟩

/-- Storage for the checkEventOverlap witness: both hangouts stored. -/
def sampleStorageBoth : Storage :=
  ⟨[sampleUserA, sampleUserB], some sampleUserA, [sampleHangoutA, sampleHangoutB], []⟩

/-- An update record with no field present. -/
def sampleUpdates : EventUpdates :=
  ⟨none, none, none, none, none, none, none, none⟩

/-- Firestore database whose users collection is unreachable. -/
def sampleFailDb : FirebaseDb :=
  ⟨false, true, true, [sampleUserA, sampleUserB], [sampleHangoutB], []⟩

/-- The firestore `getHangoutMatches` (src/src/store/calendarStore.ts lines
337-347).  Unlike the localStorage variant, this body is a stub: after the
`userId` guard it unconditionally returns the empty list — the source
comment reads "This should return cached/synchronous data, not async" and
the body is just `return [];` — so it never reads the notification store at
all, and its `catch` branch is unreachable. -/
def fbGetHangoutMatches (userId : Option String) : List HangoutMatch :=
  match userId with
  | none => []
  | some _ => []

/-- Firestore database, fully available, holding the pair notification of
u1. -/
def sampleNotifDb : FirebaseDb :=
  ⟨true, true, true, [sampleUserA, sampleUserB], [sampleHangoutB], [samplePairNotifA]⟩

end Overlapping

namespace Overlapping


/-- C1: for two events whose four timestamps parse and whose ranges satisfy
start ≤ end, `getTimeOverlap` returns the pair of the later start and the
earlier end exactly when that maximum is at most that minimum (inclusive,
so a zero-length touch is a valid overlap), and `none` otherwise. -/
theorem getTimeOverlap_pair_iff (event1 event2 : Event) (s1 t1 s2 t2 : Int)
    (hs1 : event1.startTime = some s1) (ht1 : event1.endTime = some t1)
    (hs2 : event2.startTime = some s2) (ht2 : event2.endTime = some t2)
    (hv1 : s1 ≤ t1) (hv2 : s2 ≤ t2) :
    getTimeOverlap event1 event2 =
      if max s1 s2 ≤ min t1 t2 then some ⟨max s1 s2, min t1 t2⟩ else none := by
  simp [getTimeOverlap, jsMax, jsMin, hs1, ht1, hs2, ht2]

/-- Witness for C1 at the sample events: max 18 19 = 19 ≤ 20 = min 20 21. -/
theorem getTimeOverlap_pair_iff_witness :
    getTimeOverlap sampleHangoutA sampleHangoutB = some ⟨19, 20⟩ := by
  rw [getTimeOverlap_pair_iff sampleHangoutA sampleHangoutB 18 20 19 21
    rfl rfl rfl rfl (by decide) (by decide)]
  decide

/-- C6: when any of the four timestamps of the two events is malformed
(parses to `NaN`), `getTimeOverlap` returns `none`; being a total Lean
function, the model also shows no parse failure propagates. -/
theorem getTimeOverlap_malformed (event1 event2 : Event)
    (h : event1.startTime = none ∨ event1.endTime = none ∨
         event2.startTime = none ∨ event2.endTime = none) :
    getTimeOverlap event1 event2 = none := by
  rcases h with h | h | h | h <;>
    cases hs1 : event1.startTime <;> cases ht1 : event1.endTime <;>
    cases hs2 : event2.startTime <;> cases ht2 : event2.endTime <;>
    simp_all [getTimeOverlap, jsMax, jsMin]

/-- Witness for C6: the second event has an unparseable end timestamp. -/
theorem getTimeOverlap_malformed_witness :
    getTimeOverlap sampleHangoutA
      ⟨"e9", "u2", "Bad", none, some 19, none, EventType.hangout, "c9"⟩ = none :=
  getTimeOverlap_malformed sampleHangoutA
    ⟨"e9", "u2", "Bad", none, some 19, none, EventType.hangout, "c9"⟩
    (Or.inr (Or.inr (Or.inr rfl)))

/-- C7: for an event with parseable timestamps and start ≤ end, the overlap
of the event with itself is its own range. -/
theorem getTimeOverlap_refl (a : Event) (s t : Int)
    (hs : a.startTime = some s) (ht : a.endTime = some t) (h : s ≤ t) :
    getTimeOverlap a a = some ⟨s, t⟩ := by
  simp [getTimeOverlap, jsMax, jsMin, hs, ht, h]

/-- Witness for C7 at the sample event with range 18 to 20. -/
theorem getTimeOverlap_refl_witness :
    getTimeOverlap sampleHangoutA sampleHangoutA = some ⟨18, 20⟩ :=
  getTimeOverlap_refl sampleHangoutA 18 20 rfl rfl (by decide)

end Overlapping

namespace Overlapping

/-- C8: when no event with the given id in the hook events list is owned by
the calling user (in particular when no such event exists at all), both
`updateEvent` and `deleteEvent` return `false` and leave the hook state and
the stored event collection unchanged. -/
theorem update_delete_nonowner (userId : Option String) (hookEvents : List Event)
    (eventId : String) (updates : EventUpdates) (st : Storage)
    (h : ∀ e ∈ hookEvents, e.id = eventId → some e.userId ≠ userId) :
    updateEvent userId hookEvents eventId updates st = ⟨false, hookEvents, st⟩ ∧
    deleteEvent userId hookEvents eventId st = ⟨false, hookEvents, st⟩ := by
  cases hfind : hookEvents.find? (fun e => e.id == eventId) with
  | none => constructor <;> simp [updateEvent, deleteEvent, hfind]
  | some e =>
    have hmem : e ∈ hookEvents := List.mem_of_find?_eq_some hfind
    have hid : e.id = eventId := by
      have hp := List.find?_some hfind
      simpa using hp
    have hne := h e hmem hid
    have hguard : jsStrEqOpt e.userId userId = false := by
      cases userId with
      | none => rfl
      | some u =>
        simp only [jsStrEqOpt, beq_eq_false_iff_ne, ne_eq]
        intro heq
        exact hne (by rw [heq])
    constructor <;> simp [updateEvent, deleteEvent, hfind, hguard]

/-- Witness for C8: u2 attempts to update and delete the event e1 owned by
u1; both calls return `false` and change nothing. -/
theorem update_delete_nonowner_witness :
    updateEvent (some "u2") [sampleHangoutA] "e1" sampleUpdates sampleStorage0 =
      ⟨false, [sampleHangoutA], sampleStorage0⟩ ∧
    deleteEvent (some "u2") [sampleHangoutA] "e1" sampleStorage0 =
      ⟨false, [sampleHangoutA], sampleStorage0⟩ :=
  update_delete_nonowner (some "u2") [sampleHangoutA] "e1" sampleUpdates
    sampleStorage0 (by decide)

/-- C9: neither `updateEvent` nor `deleteEvent` touches the notification
store — for every input, including updates that change a hangout start or
end time and every deletion, the stored notifications (and with them every
`hangout_match` notification) are exactly those of the initial state; the
match detector is never invoked on these paths. -/
theorem update_delete_preserve_notifications (userId : Option String)
    (hookEvents : List Event) (eventId : String) (updates : EventUpdates)
    (st : Storage) :
    (updateEvent userId hookEvents eventId updates st).storage.notifications =
      st.notifications ∧
    (deleteEvent userId hookEvents eventId st).storage.notifications =
      st.notifications := by
  constructor
  · unfold updateEvent
    cases hfind : hookEvents.find? (fun e => e.id == eventId) with
    | none => rfl
    | some e => cases hg : jsStrEqOpt e.userId userId <;> simp [hg]
  · unfold deleteEvent
    cases hfind : hookEvents.find? (fun e => e.id == eventId) with
    | none => rfl
    | some e => cases hg : jsStrEqOpt e.userId userId <;> simp [hg]

/-- Helper for C4: on a list of notifications whose payloads are all
present, the mapping body of `getHangoutMatches` neither throws nor skips,
and produces exactly one `HangoutMatch` per notification. -/
theorem mapHangoutNotifications_eq (uid : String) :
    ∀ l : List Notification, (∀ n ∈ l, n.data ≠ none) →
      mapHangoutNotifications uid l =
        Except.ok (l.filterMap (matchOfNotification uid)) ∧
      (l.filterMap (matchOfNotification uid)).length = l.length
  | [], _ => by simp [mapHangoutNotifications]
  | n :: rest, h => by
    have hn := h n (List.mem_cons_self n rest)
    cases hd : n.data with
    | none => exact absurd hd hn
    | some d =>
      have ih := mapHangoutNotifications_eq uid rest
        (fun m hm => h m (List.mem_cons_of_mem _ hm))
      simp [mapHangoutNotifications, hd, matchOfNotification, ih.1, ih.2, Except.map]

/-- C4: for a user all of whose `hangout_match` notifications carry a
payload, `getHangoutMatches` returns (without throwing) exactly one
`HangoutMatch` per `hangout_match` notification of that user, in the shape
`matchOfNotification` — id, `[userId, matchedUserId]`, the payload
overlap, the payload event-id list, and the notification creation time.
The function is a pure projection of the notification list: it writes
nothing. -/
theorem getHangoutMatches_projection (uid : String) (ns : List Notification)
    (h : ∀ n ∈ ns, n.userId = uid → n.type = NotificationType.hangout_match →
      n.data ≠ none) :
    getHangoutMatches (some uid) ns =
      Except.ok ((ns.filter (fun n => n.userId == uid &&
        n.type == NotificationType.hangout_match)).filterMap
          (matchOfNotification uid)) ∧
    ((ns.filter (fun n => n.userId == uid &&
        n.type == NotificationType.hangout_match)).filterMap
          (matchOfNotification uid)).length =
      (ns.filter (fun n => n.userId == uid &&
        n.type == NotificationType.hangout_match)).length := by
  have hl : ∀ n ∈ ns.filter (fun n => n.userId == uid &&
      n.type == NotificationType.hangout_match), n.data ≠ none := by
    intro n hn
    rw [List.mem_filter] at hn
    have h1 := hn.2
    simp only [Bool.and_eq_true, beq_iff_eq] at h1
    exact h n hn.1 h1.1 h1.2
  have hmain := mapHangoutNotifications_eq uid _ hl
  exact ⟨hmain.1, hmain.2⟩

/-- Witness for C4 on the storage holding the single pair notification of
u1. -/
theorem getHangoutMatches_projection_witness :
    getHangoutMatches (some "u1") sampleStorageOwn.notifications =
      Except.ok ((sampleStorageOwn.notifications.filter (fun n => n.userId == "u1" &&
        n.type == NotificationType.hangout_match)).filterMap
          (matchOfNotification "u1")) ∧
    ((sampleStorageOwn.notifications.filter (fun n => n.userId == "u1" &&
        n.type == NotificationType.hangout_match)).filterMap
          (matchOfNotification "u1")).length =
      (sampleStorageOwn.notifications.filter (fun n => n.userId == "u1" &&
        n.type == NotificationType.hangout_match)).length :=
  getHangoutMatches_projection "u1" sampleStorageOwn.notifications (by decide)

/-- C4 counterexample, at the second code location the claim cites: in the
firestore variant the hangout match query is a stub.  At a fully available
store, the notification query for u1 returns exactly one notification, of
kind `hangout_match`, yet `getHangoutMatches` returns the empty list — zero
`HangoutMatch` records instead of one per notification.  The localStorage
variant does implement the claimed projection; see the amended theorem. -/
theorem fbGetHangoutMatches_stub_cex :
    fbGetUserNotifications sampleNotifDb "u1" = [samplePairNotifA] ∧
    samplePairNotifA.type = NotificationType.hangout_match ∧
    fbGetHangoutMatches (some "u1") = [] := by
  decide

/-- Helper for C10: the first-overlap search over candidates of a single
friend, prefixed to further candidates. -/
theorem firstOverlap_append_mapped (targetEvent : Event) (friend : User) :
    ∀ (hangs : List Event) (cs : List (User × Event)),
      firstOverlap targetEvent ((hangs.map (fun e => (friend, e))) ++ cs) =
        match findOverlapInHangouts targetEvent friend hangs with
        | some r => some r
        | none => firstOverlap targetEvent cs
  | [], cs => by simp [findOverlapInHangouts]
  | e :: rest, cs => by
    cases hov : getTimeOverlap targetEvent e with
    | some ov =>
      simp [firstOverlap, findOverlapInHangouts, List.findSome?_cons, hov]
    | none =>
      have ih := firstOverlap_append_mapped targetEvent friend rest cs
      simp only [firstOverlap, List.map_cons, List.cons_append,
        List.findSome?_cons, hov, Option.map_none'] at ih ⊢
      simpa [findOverlapInHangouts, hov] using ih

/-- Helper for C10: the nested early-return loops of `checkEventOverlap`
compute the first overlapping candidate in friend-list order, then event
order. -/
theorem findOverlapAcrossFriends_eq (targetEvent : Event) (allEvents : List Event) :
    ∀ friends : List User,
      findOverlapAcrossFriends targetEvent allEvents friends =
        firstOverlap targetEvent (overlapCandidates allEvents friends)
  | [] => by simp [findOverlapAcrossFriends, overlapCandidates, firstOverlap]
  | friend :: rest => by
    have ih := findOverlapAcrossFriends_eq targetEvent allEvents rest
    have hsplit := firstOverlap_append_mapped targetEvent friend
      (allEvents.filter (fun e => e.userId == friend.id && e.type == EventType.hangout))
      (overlapCandidates allEvents rest)
    simp only [overlapCandidates, List.flatMap_cons] at hsplit ⊢
    rw [hsplit]
    simp only [findOverlapAcrossFriends]
    cases hcase : findOverlapInHangouts targetEvent friend
      (allEvents.filter (fun e => e.userId == friend.id && e.type == EventType.hangout)) with
    | some r => rfl
    | none => simpa [overlapCandidates] using ih

/-- C10: first, when the caller is the current user, the given id names a
hangout-kind event of the caller, then `checkEventOverlap` returns exactly
the first overlapping friend hangout in friend-list order then friend-event
order (an `Option`, hence at most one record, no matter how many candidates
overlap); second, when no stored event with that id and hangout kind is
owned by the caller, it returns `none`. -/
theorem checkEventOverlap_spec (uid : String) (st : Storage) (eventId : String)
    (currentUser : User) (targetEvent : Event) :
    (st.currentUser = some currentUser →
      st.events.find? (fun e => e.id == eventId && e.type == EventType.hangout) =
        some targetEvent →
      targetEvent.userId = uid →
      checkEventOverlap (some uid) st eventId =
        firstOverlap targetEvent (overlapCandidates st.events
          (st.users.filter (fun u => currentUser.friends.contains u.id)))) ∧
    ((∀ e ∈ st.events, e.id = eventId → e.type = EventType.hangout →
        e.userId ≠ uid) →
      checkEventOverlap (some uid) st eventId = none) := by
  constructor
  · intro hcu hfind howner
    simp [checkEventOverlap, hcu, hfind, howner,
      findOverlapAcrossFriends_eq targetEvent st.events]
  · intro h
    cases hcu : st.currentUser with
    | none => simp [checkEventOverlap, hcu]
    | some cu =>
      cases hfind : st.events.find?
          (fun e => e.id == eventId && e.type == EventType.hangout) with
      | none => simp [checkEventOverlap, hcu, hfind]
      | some e =>
        have hmem := List.mem_of_find?_eq_some hfind
        have hp := List.find?_some hfind
        simp only [Bool.and_eq_true, beq_iff_eq] at hp
        have hne := h e hmem hp.1 hp.2
        simp [checkEventOverlap, hcu, hfind, hne]

/-- Witness for C10: u1 owns the stored hangout e1, so the call returns the
first-overlap search result; u9 owns nothing, so the call returns `none`. -/
theorem checkEventOverlap_spec_witness :
    checkEventOverlap (some "u1") sampleStorageBoth "e1" =
      firstOverlap sampleHangoutA (overlapCandidates sampleStorageBoth.events
        (sampleStorageBoth.users.filter
          (fun u => sampleUserA.friends.contains u.id))) ∧
    checkEventOverlap (some "u9") sampleStorageBoth "e1" = none :=
  ⟨(checkEventOverlap_spec "u1" sampleStorageBoth "e1" sampleUserA sampleHangoutA).1
      rfl (by decide) rfl,
   (checkEventOverlap_spec "u9" sampleStorageBoth "e1" sampleUserA sampleHangoutA).2
      (by decide)⟩

end Overlapping

namespace Overlapping

/-- C3: for a match between events of two distinct users both present in
the users store, `createHangoutMatch` prepends exactly two `hangout_match`
notifications — one addressed to each owner, each naming the other owner as
`matchedUserId` — and both carry the same overlap and the same two-element
event-id list `[event1.id, event2.id]`. -/
theorem createHangoutMatch_two_notifications (env : Env) (event1 event2 : Event)
    (overlap : TimeRange) (st : Storage) (k : Nat) (w1 w2 : User)
    (hne : event1.userId ≠ event2.userId)
    (h1 : st.users.find? (fun u => u.id == event1.userId) = some w1)
    (h2 : st.users.find? (fun u => u.id == event2.userId) = some w2) :
    ∃ n1 n2 : Notification,
      (createHangoutMatch env event1 event2 overlap st k).1.notifications =
        n2 :: n1 :: st.notifications ∧
      n1.userId = event1.userId ∧ n1.type = NotificationType.hangout_match ∧
      n1.data = some ⟨some event2.userId, overlap, [event1.id, event2.id]⟩ ∧
      n2.userId = event2.userId ∧ n2.type = NotificationType.hangout_match ∧
      n2.data = some ⟨some event1.userId, overlap, [event1.id, event2.id]⟩ := by
  have hb12 : (event2.userId != event1.userId) = true := by
    simp only [bne_iff_ne, ne_eq]
    exact fun heq => hne heq.symm
  have hb21 : (event1.userId != event2.userId) = true := by
    simp only [bne_iff_ne, ne_eq]
    exact hne
  have hfind1 : [event1.userId, event2.userId].find? (fun id => id != event1.userId) =
      some event2.userId := by
    simp [List.find?, bne_self_eq_false, hb12]
  have hfind2 : [event1.userId, event2.userId].find? (fun id => id != event2.userId) =
      some event1.userId := by
    simp [List.find?, hb21]
  refine ⟨mkMatchNotification (env.genId k) event1.userId (some event2.userId) w2
      overlap event1 event2 env.now,
    mkMatchNotification (env.genId (k + 1)) event2.userId (some event1.userId) w1
      overlap event1 event2 env.now,
    ?_, rfl, rfl, rfl, rfl, rfl, rfl⟩
  simp only [createHangoutMatch, matchSide, hfind1, hfind2, jsStrEqOpt, h1, h2]

/-- Witness for C3 at the sample match between e1 of u1 and e2 of u2. -/
theorem createHangoutMatch_two_notifications_witness :
    ∃ n1 n2 : Notification,
      (createHangoutMatch sampleEnv sampleHangoutA sampleHangoutB ⟨19, 20⟩
          sampleStorage0 0).1.notifications =
        n2 :: n1 :: sampleStorage0.notifications ∧
      n1.userId = sampleHangoutA.userId ∧ n1.type = NotificationType.hangout_match ∧
      n1.data = some ⟨some sampleHangoutB.userId, ⟨19, 20⟩,
        [sampleHangoutA.id, sampleHangoutB.id]⟩ ∧
      n2.userId = sampleHangoutB.userId ∧ n2.type = NotificationType.hangout_match ∧
      n2.data = some ⟨some sampleHangoutA.userId, ⟨19, 20⟩,
        [sampleHangoutA.id, sampleHangoutB.id]⟩ :=
  createHangoutMatch_two_notifications sampleEnv sampleHangoutA sampleHangoutB
    ⟨19, 20⟩ sampleStorage0 0 sampleUserA sampleUserB (by decide) (by decide) (by decide)

/-- Helper for C2: one notifier side never removes stored notifications. -/
theorem matchSide_mem (env : Env) (users : List String) (uid : String)
    (event1 event2 : Event) (overlap : TimeRange) (st : Storage) (k : Nat)
    (n : Notification) (h : n ∈ st.notifications) :
    n ∈ (matchSide env users uid event1 event2 overlap st k).1.notifications := by
  simp only [matchSide]
  split
  · exact List.mem_cons_of_mem _ h
  · exact h

/-- Helper for C2: the notifier never removes stored notifications. -/
theorem createHangoutMatch_mem (env : Env) (event1 event2 : Event)
    (overlap : TimeRange) (st : Storage) (k : Nat) (n : Notification)
    (h : n ∈ st.notifications) :
    n ∈ (createHangoutMatch env event1 event2 overlap st k).1.notifications := by
  unfold createHangoutMatch
  exact matchSide_mem _ _ _ _ _ _ _ _ _ (matchSide_mem _ _ _ _ _ _ _ _ _ h)

/-- Helper for C2: along the inner detector loop, an existing dedup-hit
notification stays stored and no match for its pair is ever logged. -/
theorem processFriendHangouts_dedup (env : Env) (uid : String)
    (hangoutEvent : Event) (e2id : String) (n : Notification)
    (hhit : dedupHit uid hangoutEvent.id e2id n = true) :
    ∀ (hangs : List Event) (st : Storage) (k : Nat) (log : List (String × String)),
      n ∈ st.notifications → (hangoutEvent.id, e2id) ∉ log →
      n ∈ (processFriendHangouts env uid hangoutEvent hangs st k log).storage.notifications ∧
      (hangoutEvent.id, e2id) ∉
        (processFriendHangouts env uid hangoutEvent hangs st k log).matchLog
  | [], st, k, log, hmem, hlog => by
    exact ⟨hmem, hlog⟩
  | fh :: rest, st, k, log, hmem, hlog => by
    have key : fh.id = e2id →
        st.notifications.any (dedupHit uid hangoutEvent.id fh.id) = true := by
      intro he
      rw [he]
      exact List.any_eq_true.mpr ⟨n, hmem, hhit⟩
    simp only [processFriendHangouts]
    cases hov : getTimeOverlap hangoutEvent fh with
    | none =>
      exact processFriendHangouts_dedup env uid hangoutEvent e2id n hhit rest st k log hmem hlog
    | some ov =>
      cases hal : st.notifications.any (dedupHit uid hangoutEvent.id fh.id) with
      | true =>
        simp only [hal, if_true]
        exact processFriendHangouts_dedup env uid hangoutEvent e2id n hhit rest st k log hmem hlog
      | false =>
        have hne2 : fh.id ≠ e2id := by
          intro he
          rw [key he] at hal
          exact absurd hal (by decide)
        simp only [hal, Bool.false_eq_true, if_false]
        refine processFriendHangouts_dedup env uid hangoutEvent e2id n hhit rest _ _ _
          (createHangoutMatch_mem env hangoutEvent fh ov st k n hmem) ?_
        simp only [List.mem_append, List.mem_singleton]
        rintro (hl | hp)
        · exact hlog hl
        · exact hne2 ((congrArg Prod.snd hp).symm)

/-- Helper for C2: the same invariant along the outer detector loop. -/
theorem processFriends_dedup (env : Env) (uid : String) (hangoutEvent : Event)
    (allEvents : List Event) (e2id : String) (n : Notification)
    (hhit : dedupHit uid hangoutEvent.id e2id n = true) :
    ∀ (friends : List User) (st : Storage) (k : Nat) (log : List (String × String)),
      n ∈ st.notifications → (hangoutEvent.id, e2id) ∉ log →
      n ∈ (processFriends env uid hangoutEvent allEvents friends st k log).storage.notifications ∧
      (hangoutEvent.id, e2id) ∉
        (processFriends env uid hangoutEvent allEvents friends st k log).matchLog
  | [], st, k, log, hmem, hlog => by exact ⟨hmem, hlog⟩
  | friend :: rest, st, k, log, hmem, hlog => by
    have hinner := processFriendHangouts_dedup env uid hangoutEvent e2id n hhit
      (allEvents.filter (fun e => e.userId == friend.id && e.type == EventType.hangout))
      st k log hmem hlog
    simp only [processFriends]
    exact processFriends_dedup env uid hangoutEvent allEvents e2id n hhit rest _ _ _
      hinner.1 hinner.2

/-- C2 counterexample: the storage holds a `hangout_match` notification
whose payload lists both event ids — it belongs to the friend u2, not to
the detecting user u1 — yet re-running the detector as u1 with the same
pair produces a new match for exactly that pair.  The dedup check of the
source requires the stored notification to belong to the detecting user
(part_006 checks `notification.userId === userId`; the firestore variant
fetches only the notifications of the current user), so a pair notification
held only by the other participant does not suppress the match. -/
theorem checkForHangoutMatches_dedup_cex :
    (∃ n ∈ sampleStorageOther.notifications,
        n.type = NotificationType.hangout_match ∧
        dataIncludes n.data sampleHangoutA.id = true ∧
        dataIncludes n.data sampleHangoutB.id = true) ∧
    (sampleHangoutA.id, sampleHangoutB.id) ∈
      (checkForHangoutMatches sampleEnv (some "u1") sampleHangoutA
        sampleStorageOther 0).matchLog := by
  decide

/-- C2 (amended): if the existing notifications contain a `hangout_match`
notification belonging to the detecting user whose payload lists both the
new hangout id and the candidate id, then the detector logs no match for
that pair — in particular, re-running the detector after such a
notification pair exists yields zero new matches for the pair. -/
theorem checkForHangoutMatches_dedup (env : Env) (uid : String)
    (hangoutEvent : Event) (st : Storage) (k : Nat) (e2id : String)
    (h : ∃ n ∈ st.notifications, n.userId = uid ∧
         n.type = NotificationType.hangout_match ∧
         dataIncludes n.data hangoutEvent.id = true ∧
         dataIncludes n.data e2id = true) :
    (hangoutEvent.id, e2id) ∉
      (checkForHangoutMatches env (some uid) hangoutEvent st k).matchLog := by
  obtain ⟨n, hmem, hu, ht, hd1, hd2⟩ := h
  have hhit : dedupHit uid hangoutEvent.id e2id n = true := by
    simp [dedupHit, hu, ht, hd1, hd2]
  cases hcu : st.currentUser with
  | none => simp [checkForHangoutMatches, hcu]
  | some currentUser =>
    simp only [checkForHangoutMatches, hcu]
    exact (processFriends_dedup env uid hangoutEvent st.events e2id n hhit _ st k []
      hmem (List.not_mem_nil _)).2

/-- Witness for C2 (amended): with the pair notification owned by the
detecting user u1, the detector logs nothing for the pair. -/
theorem checkForHangoutMatches_dedup_witness :
    (∃ n ∈ sampleStorageOwn.notifications, n.userId = "u1" ∧
        n.type = NotificationType.hangout_match ∧
        dataIncludes n.data sampleHangoutA.id = true ∧
        dataIncludes n.data "e2" = true) ∧
    (sampleHangoutA.id, "e2") ∉
      (checkForHangoutMatches sampleEnv (some "u1") sampleHangoutA
        sampleStorageOwn 0).matchLog :=
  ⟨by decide,
   checkForHangoutMatches_dedup sampleEnv "u1" sampleHangoutA sampleStorageOwn 0 "e2"
     (by decide)⟩

/-- Helper for C5: with the users collection down, the friend lookup throws
inside `getUserFriends`, whose catch returns the empty list. -/
theorem fbGetUserFriends_usersDown (db : FirebaseDb) (uid : String)
    (h : db.usersAvailable = false) : fbGetUserFriends db uid = [] := by
  simp [fbGetUserFriends, fbGetUserDoc, h, Bind.bind, Except.bind]

/-- Helper for C5: with the events collection down, the event query throws
inside `getEventsByUserIds`, whose catch returns the empty list. -/
theorem fbGetEventsByUserIds_eventsDown (db : FirebaseDb) (ids : List String)
    (h : db.eventsAvailable = false) : fbGetEventsByUserIds db ids = [] := by
  unfold fbGetEventsByUserIds
  rw [h]
  split <;> rfl

/-- Helper for C5: with no friend hangouts at all, the detector loops do
nothing. -/
theorem fbProcessFriends_noHangouts (env : Env) (hookUserId : Option String)
    (hangoutEvent : Event) (safeNotifications : List Notification) :
    ∀ (friends : List User) (db : FirebaseDb) (k : Nat)
      (log : List (String × String)),
      fbProcessFriends env hookUserId hangoutEvent [] safeNotifications
        friends db k log = (db, k, log)
  | [], db, k, log => rfl
  | friend :: rest, db, k, log => by
    simp only [fbProcessFriends, List.filter_nil, fbProcessFriendHangouts]
    exact fbProcessFriends_noHangouts env hookUserId hangoutEvent
      safeNotifications rest db k log

/-- C5 counterexample: at a store whose users collection is unreachable,
the friend lookup of the detector fails, yet the error state handed to the
caller stays `none`: the source catches the error and only logs it to the
console, never calling `setError` inside `checkForHangoutMatches` — so the
error is swallowed, not surfaced as an error state, contrary to the claim. -/
theorem fbCheckForHangoutMatches_no_error_surfaced :
    sampleFailDb.usersAvailable = false ∧
    (fbCheckForHangoutMatches sampleEnv (some "u1") sampleHangoutA
      sampleFailDb 0).errorState = none := by
  decide

/-- C5 (amended): when the friend lookup or the event lookup fails (the
corresponding collection is unavailable), the detector produces an empty
match list, writes no notifications (the store is returned unchanged), and
no exception escapes — the embedding is a total function and the thrown
error is caught — but no error state is surfaced to the caller: the error
slot remains `none`. -/
theorem fbCheckForHangoutMatches_fail_closed (env : Env)
    (hookUserId : Option String) (hangoutEvent : Event) (db : FirebaseDb)
    (k : Nat) (h : db.usersAvailable = false ∨ db.eventsAvailable = false) :
    (fbCheckForHangoutMatches env hookUserId hangoutEvent db k).matchLog = [] ∧
    (fbCheckForHangoutMatches env hookUserId hangoutEvent db k).db = db ∧
    (fbCheckForHangoutMatches env hookUserId hangoutEvent db k).errorState = none := by
  cases hookUserId with
  | none => exact ⟨rfl, rfl, rfl⟩
  | some uid =>
    rcases h with h | h
    · have hfr := fbGetUserFriends_usersDown db uid h
      simp [fbCheckForHangoutMatches, hfr]
    · cases hfr : (fbGetUserFriends db uid).isEmpty with
      | true => simp [fbCheckForHangoutMatches, hfr]
      | false =>
        have hev := fbGetEventsByUserIds_eventsDown db
          ((fbGetUserFriends db uid).map (fun f => f.id)) h
        simp [fbCheckForHangoutMatches, hfr, hev, fbProcessFriends_noHangouts]

/-- Witness for C5 (amended) at the store with the users collection down. -/
theorem fbCheckForHangoutMatches_fail_closed_witness :
    (fbCheckForHangoutMatches sampleEnv (some "u1") sampleHangoutA
      sampleFailDb 0).matchLog = [] ∧
    (fbCheckForHangoutMatches sampleEnv (some "u1") sampleHangoutA
      sampleFailDb 0).db = sampleFailDb ∧
    (fbCheckForHangoutMatches sampleEnv (some "u1") sampleHangoutA
      sampleFailDb 0).errorState = none :=
  fbCheckForHangoutMatches_fail_closed sampleEnv (some "u1") sampleHangoutA
    sampleFailDb 0 (Or.inl rfl)

end Overlapping
